import Mathlib

/-!
Verification of the mega-server career-bot aggregation pipeline.

Shallow embedding of the JavaScript sources:
  - src/services/dedup.js      (dedup store: hasSeenJob, markJobSeen, cleanOldEntries)
  - src/scrapers/greenhouse.js, wellfound.js, ycombinator.js (filterJobs, id construction)
  - src/bot.js                 (checkForNewJobs, checkLinkedInEmails, postJobs)
  - src/services/scheduler.js  (start, trigger)

Modelling conventions:
  - JS strings are Lean `String`; case-insensitive matching goes through
    `jsToLower` (character-wise `Char.toLower`, the ASCII behaviour of JS
    `toLowerCase` on the keyword sets involved).
  - Timestamps are `Int`, measured in days.  The code stores ISO-8601
    strings, whose lexicographic order coincides with chronological order,
    so `<` on `Int` is a faithful image of the string comparison in
    `cleanOldEntries`; the cutoff `setDate(getDate() - 30)` becomes
    `now - 30`.
  - The JS object `seenJobs` keyed by job id is an association list with
    at most one binding per key reachable from the store operations;
    `storeInsert` replaces an existing binding in place, like a JS
    property assignment.
  - Fallible scraper runs (`Promise.allSettled`) are `Except String (List Job)`
    values: `.ok jobs` for a fulfilled scraper, `.error msg` for a rejected
    one.
-/

/-- Canonical posting, as the scrapers construct it (title is always present:
scrapers discard entries without one; the other fields may be absent). -/
structure Job where
  id : String
  title : String
  company : Option String := none
  location : Option String := none
  url : Option String := none
  source : Option String := none
deriving Repr, DecidableEq

/-- Persisted dedup entry, the object stored in `seenJobs[jobId]`
(dedup.js lines 73-81). -/
structure SeenRecord where
  id : String
  title : Option String
  company : Option String
  url : Option String
  source : Option String
  firstSeen : Int
  lastSeen : Int
deriving Repr, DecidableEq

/-- Keyword rule set, the `filters` section of config.js. -/
structure FilterRules where
  roles : List String
  locations : List String
  exclude : List String
deriving Repr, DecidableEq

/-- JS `x || null` on an optional string: empty strings are falsy and
collapse to null. -/
def jsOrNull : Option String → Option String
  | some t => if t = "" then none else some t
  | none => none

/-- JS `toLowerCase`, character-wise (ASCII range is all the config uses). -/
def jsToLower (s : String) : String :=
  ⟨s.data.map Char.toLower⟩

/-- Helper for substring search: does `hay` start with `needle`? -/
def isPre : List Char → List Char → Bool
  | [], _ => true
  | _ :: _, [] => false
  | a :: as, b :: bs => a == b && isPre as bs

/-- Helper for substring search: does `needle` occur contiguously in `hay`? -/
def containsSub : List Char → List Char → Bool
  | [], needle => needle.isEmpty
  | c :: rest, needle => isPre needle (c :: rest) || containsSub rest needle

/-- JS `hay.includes(needle)`: contiguous substring containment. -/
def strIncludes (hay needle : String) : Bool :=
  containsSub hay.data needle.data

/-- The in-memory `seenJobs` object of dedup.js: bindings from job id to
SeenRecord. -/
abbrev Store := List (String × SeenRecord)

/-- Property lookup `seenJobs[jobId]`. -/
def storeLookup : Store → String → Option SeenRecord
  | [], _ => none
  | (k, r) :: rest, id => if k = id then some r else storeLookup rest id

/-- dedup.js `hasSeenJob`: `!!seenJobs[jobId]` (records are objects, hence
truthy exactly when present). -/
def hasSeenJob (s : Store) (id : String) : Bool :=
  (storeLookup s id).isSome

/-- Property assignment `seenJobs[jobId] = r`: replaces an existing binding,
otherwise adds one. -/
def storeInsert : Store → String → SeenRecord → Store
  | [], id, r => [(id, r)]
  | (k, old) :: rest, id, r =>
      if k = id then (id, r) :: rest else (k, old) :: storeInsert rest id r

/-- dedup.js `markJobSeen(jobId, job)` at clock time `now`: upsert that
keeps `firstSeen` of an existing record (`seenJobs[jobId]?.firstSeen || now`)
and always rewrites `lastSeen` to now (lines 70-85). -/
def markJobSeen (s : Store) (jobId : String) (job : Job) (now : Int) : Store :=
  let r : SeenRecord :=
    { id := jobId
      title := jsOrNull (some job.title)
      company := jsOrNull job.company
      url := jsOrNull job.url
      source := jsOrNull job.source
      firstSeen :=
        match storeLookup s jobId with
        | some old => old.firstSeen
        | none => now
      lastSeen := now }
  storeInsert s jobId r

/-- dedup.js `cleanOldEntries` at clock time `now` (days): deletes every
record whose `firstSeen` is strictly below the 30-day cutoff (lines 107-124). -/
def cleanOldEntries (s : Store) (now : Int) : Store :=
  s.filter (fun p => !(decide (p.2.firstSeen < now - 30)))

/-- The shared `filterJobs` predicate body of greenhouse.js lines 120-142
(wellfound.js and ycombinator.js repeat it verbatim): role keyword in the
lower-cased title (or no role filters), location keyword in the lower-cased
location (or no location filters), and no exclude keyword in the title. -/
def jobMatches (f : FilterRules) (job : Job) : Bool :=
  let titleLower := jsToLower job.title
  let locationLower := jsToLower (job.location.getD "")
  let matchesRole :=
    f.roles.isEmpty || f.roles.any (fun role => strIncludes titleLower (jsToLower role))
  let matchesLocation :=
    f.locations.isEmpty || f.locations.any (fun loc => strIncludes locationLower (jsToLower loc))
  let shouldExclude :=
    f.exclude.any (fun term => strIncludes titleLower (jsToLower term))
  matchesRole && matchesLocation && !shouldExclude

/-- `filterJobs(jobs)` of the scrapers: keep exactly the matching jobs. -/
def filterJobs (f : FilterRules) (jobs : List Job) : List Job :=
  jobs.filter (fun j => jobMatches f j)

/-- Specification-level predicate: `needle` is a case-insensitive substring
of `hay` (spec section 3, FilterRule set). -/
def substrCI (needle hay : String) : Prop :=
  (jsToLower needle).data <:+: (jsToLower hay).data

/-- bot.js line 105 / 128: the jobs of the batch whose id the dedup store
has not seen. -/
def newJobsOf (s : Store) (allJobs : List Job) : List Job :=
  allJobs.filter (fun j => !(hasSeenJob s j.id))

/-- bot.js line 111 / 132: `newJobs.forEach(job => dedup.markJobSeen(job.id, job))`. -/
def markAll (s : Store) (jobs : List Job) (now : Int) : Store :=
  jobs.foldl (fun st j => markJobSeen st j.id j now) s

/-- One aggregation cycle over an already-collected candidate batch
(bot.js lines 104-114 and 128-133): drop seen jobs, mark the remainder
seen, hand the remainder to the delivery code.  Returns the updated store
and the list handed to `postJobs`. -/
def runCycle (s : Store) (allJobs : List Job) (now : Int) : Store × List Job :=
  let nj := newJobsOf s allJobs
  (markAll s nj now, nj)

/-- bot.js `postJobs` batch cap (line 61): the sink receives
`jobs.slice(0, maxBatchSize)`. -/
def postJobsBatch (maxBatchSize : Nat) (jobs : List Job) : List Job :=
  jobs.take maxBatchSize

/-- bot.js lines 84-99: fold over the `Promise.allSettled` results in
scraper order, concatenating fulfilled job lists into the batch and
recording each rejection reason (the `logger.error` branch). -/
def collectSettled (results : List (Except String (List Job))) : List Job × List String :=
  results.foldl
    (fun acc r =>
      match r with
      | .ok js => (acc.1 ++ js, acc.2)
      | .error e => (acc.1, acc.2 ++ [e]))
    ([], [])

/-- bot.js `checkForNewJobs` given the settled scraper results: collect the
batch and the recorded failures, then run the dedup-mark-deliver cycle.
Returns ((store, list handed to postJobs), recorded scraper failures). -/
def checkForNewJobs (s : Store) (results : List (Except String (List Job))) (now : Int) :
    (Store × List Job) × List String :=
  let collected := collectSettled results
  (runCycle s collected.1 now, collected.2)

/-- bot.js `checkLinkedInEmails` (lines 123-138) given the output of
`linkedinParser.parse()`: the parsed jobs go through dedup and straight to
`postJobs`; no filter is applied (bot.js calls `parse`, not the module's
filtering `scrape`). -/
def checkLinkedInEmails (s : Store) (parsedJobs : List Job) (now : Int) : Store × List Job :=
  runCycle s parsedJobs now

/-- A sequence of aggregation cycles, each with its candidate batch and
clock time; returns the final store and the per-cycle delivered lists.
(dedup.js evicts only in `init`, so no eviction occurs between cycles of a
running process.) -/
def runCycles (s : Store) : List (List Job × Int) → Store × List (List Job)
  | [] => (s, [])
  | c :: rest =>
    let r := runCycle s c.1 c.2
    let rr := runCycles r.1 rest
    (rr.1, r.2 :: rr.2)

/-- The two named timers of scheduler.js. -/
inductive TimerName where
  | jobCheck
  | emailCheck
deriving Repr, DecidableEq

/-- Scheduler state: the number of in-flight invocations of each handler.
scheduler.js keeps no such counter and no running flag; this state only
observes what the code does. -/
structure SchedState where
  jobCheckRunning : Nat
  emailCheckRunning : Nat
deriving Repr, DecidableEq

/-- Initial scheduler state: nothing running. -/
def initSched : SchedState :=
  { jobCheckRunning := 0, emailCheckRunning := 0 }

/-- Scheduler events: a cron timer firing (the callbacks registered in
`start`, scheduler.js lines 26-33 and 43-50), a manual `trigger` call
(lines 94-102), and the completion of a handler invocation. -/
inductive SchedEvent where
  | cronFire (t : TimerName)
  | manualTrigger (t : TimerName)
  | handlerDone (t : TimerName)
deriving Repr, DecidableEq

/-- One scheduler step.  Both the cron callback and `trigger` invoke the
handler unconditionally — scheduler.js consults no state before calling
`handlers.jobCheck()` / `handler()` — so every firing and every manual
trigger starts one more in-flight invocation; completion ends one. -/
def schedStep (st : SchedState) : SchedEvent → SchedState
  | .cronFire .jobCheck => { st with jobCheckRunning := st.jobCheckRunning + 1 }
  | .cronFire .emailCheck => { st with emailCheckRunning := st.emailCheckRunning + 1 }
  | .manualTrigger .jobCheck => { st with jobCheckRunning := st.jobCheckRunning + 1 }
  | .manualTrigger .emailCheck => { st with emailCheckRunning := st.emailCheckRunning + 1 }
  | .handlerDone .jobCheck => { st with jobCheckRunning := st.jobCheckRunning - 1 }
  | .handlerDone .emailCheck => { st with emailCheckRunning := st.emailCheckRunning - 1 }

/-- JS `jobUrl.split(sep).pop()` for a single-character separator: the text
after the last occurrence of the separator (empty when the string ends with
it, the whole string when it is absent). -/
def lastUrlSegment (url : String) : String :=
  ⟨(url.data.reverse.takeWhile (fun c => c != '/')).reverse⟩

/-- wellfound.js line 110 (alternative page structure): the job id is
`jobUrl.split('/').pop() || Date.now()` — the clock is the fallback when
the last URL segment is empty — and line 111 prefixes `wellfound-`. -/
def wellfoundAltId (jobUrl : String) (nowMs : Int) : String :=
  "wellfound-" ++ (if lastUrlSegment jobUrl = "" then toString nowMs else lastUrlSegment jobUrl)

/-- ycombinator.js line 74: `$job.attr('data-job-id') || jobUrl.split('/').pop()
|| Date.now()`, prefixed `yc-` on line 77.  `dataJobId = none` models a
missing attribute (falsy, like the empty string). -/
def ycJobId (dataJobId : Option String) (jobUrl : String) (nowMs : Int) : String :=
  let d := dataJobId.getD ""
  "yc-" ++
    (if d = "" then
      (if lastUrlSegment jobUrl = "" then toString nowMs else lastUrlSegment jobUrl)
    else d)

/-- Number of bindings a store holds for a given id. -/
def countFor (s : Store) (id : String) : Nat :=
  s.countP (fun q => q.1 == id)

/-- Fulfilled value of a settled scraper result. -/
def okJobs : Except String (List Job) → Option (List Job)
  | .ok js => some js
  | .error _ => none

/-- Rejection reason of a settled scraper result. -/
def errMsg : Except String (List Job) → Option String
  | .ok _ => none
  | .error e => some e

/-! ## Helper lemmas -/

theorem isPre_iff (needle hay : List Char) : isPre needle hay = true ↔ needle <+: hay := by
  induction needle generalizing hay with
  | nil => simp [isPre]
  | cons a as ih =>
    cases hay with
    | nil => simp [isPre]
    | cons b bs =>
      simp [isPre, List.cons_prefix_cons, ih, Bool.and_eq_true, beq_iff_eq]

theorem containsSub_iff (hay needle : List Char) :
    containsSub hay needle = true ↔ needle <:+: hay := by
  induction hay with
  | nil => simp [containsSub, List.isEmpty_iff, List.infix_nil]
  | cons c rest ih =>
    simp [containsSub, Bool.or_eq_true, isPre_iff, ih, List.infix_cons_iff]

theorem strIncludes_iff (hay needle : String) :
    strIncludes hay needle = true ↔ needle.data <:+: hay.data := by
  simp [strIncludes, containsSub_iff]

theorem hasSeenJob_eq_false_iff (s : Store) (id : String) :
    hasSeenJob s id = false ↔ storeLookup s id = none := by
  unfold hasSeenJob
  cases storeLookup s id <;> simp

theorem storeLookup_storeInsert (s : Store) (id i : String) (r : SeenRecord) :
    storeLookup (storeInsert s id r) i = if i = id then some r else storeLookup s i := by
  induction s with
  | nil =>
    by_cases h : i = id
    · simp [storeInsert, storeLookup, h]
    · simp [storeInsert, storeLookup, h, Ne.symm h]
  | cons p rest ih =>
    obtain ⟨k, old⟩ := p
    by_cases hk : k = id
    · subst hk
      by_cases hi : i = k
      · subst hi
        simp [storeInsert, storeLookup]
      · simp [storeInsert, storeLookup, hi, Ne.symm hi]
    · by_cases hi : k = i
      · subst hi
        have hki : ¬(k = id) := hk
        simp [storeInsert, storeLookup, hki, Ne.symm hki]
      · simp [storeInsert, storeLookup, hk, hi, ih]

theorem countFor_storeInsert (s : Store) (id : String) (r : SeenRecord) :
    countFor (storeInsert s id r) id =
      if hasSeenJob s id then countFor s id else countFor s id + 1 := by
  induction s with
  | nil => simp [storeInsert, countFor, hasSeenJob, storeLookup]
  | cons p rest ih =>
    obtain ⟨k, old⟩ := p
    by_cases hk : k = id
    · subst hk
      simp [storeInsert, countFor, hasSeenJob, storeLookup, List.countP_cons]
    · have h1 : storeInsert ((k, old) :: rest) id r = (k, old) :: storeInsert rest id r := by
        simp [storeInsert, hk]
      have h2 : hasSeenJob ((k, old) :: rest) id = hasSeenJob rest id := by
        simp [hasSeenJob, storeLookup, hk]
      have h3 : countFor ((k, old) :: storeInsert rest id r) id =
          countFor (storeInsert rest id r) id := by
        simp [countFor, List.countP_cons, hk]
      have h4 : countFor ((k, old) :: rest) id = countFor rest id := by
        simp [countFor, List.countP_cons, hk]
      rw [h1, h3, h4, h2, ih]

theorem countFor_eq_zero (s : Store) (id : String) (h : hasSeenJob s id = false) :
    countFor s id = 0 := by
  induction s with
  | nil => simp [countFor]
  | cons p rest ih =>
    obtain ⟨k, old⟩ := p
    by_cases hk : k = id
    · subst hk
      simp [hasSeenJob, storeLookup] at h
    · have h2 : hasSeenJob rest id = false := by
        simpa [hasSeenJob, storeLookup, hk] using h
      have h3 : countFor ((k, old) :: rest) id = countFor rest id := by
        simp [countFor, List.countP_cons, hk]
      rw [h3, ih h2]

theorem hasSeenJob_markJobSeen (s : Store) (id : String) (p : Job) (t : Int) (i : String) :
    hasSeenJob (markJobSeen s id p t) i = (i == id || hasSeenJob s i) := by
  unfold markJobSeen hasSeenJob
  rw [storeLookup_storeInsert]
  by_cases h : i = id <;> simp [h]

theorem hasSeenJob_markAll (s : Store) (js : List Job) (t : Int) (i : String) :
    hasSeenJob (markAll s js t) i = (hasSeenJob s i || js.any (fun j => j.id == i)) := by
  induction js generalizing s with
  | nil => simp [markAll]
  | cons j rest ih =>
    have hstep : markAll s (j :: rest) t = markAll (markJobSeen s j.id j t) rest t := rfl
    rw [hstep, ih, hasSeenJob_markJobSeen, List.any_cons]
    cases h : (i == j.id)
    · have h2 : (j.id == i) = false := by
        simp only [beq_eq_false_iff_ne] at h ⊢
        exact Ne.symm h
      simp [h, h2]
    · have h2 : (j.id == i) = true := by
        simp only [beq_iff_eq] at h ⊢
        exact h.symm
      simp [h, h2]

theorem mem_newJobsOf (s : Store) (jobs : List Job) (q : Job) :
    q ∈ newJobsOf s jobs ↔ q ∈ jobs ∧ hasSeenJob s q.id = false := by
  simp [newJobsOf, List.mem_filter]

theorem seen_runCycle (s : Store) (jobs : List Job) (t : Int) (i : String)
    (h : hasSeenJob s i = true) : hasSeenJob (runCycle s jobs t).1 i = true := by
  simp [runCycle, hasSeenJob_markAll, h]

theorem seen_not_delivered :
    ∀ (cs : List (List Job × Int)) (s : Store) (i : String), hasSeenJob s i = true →
      ∀ d ∈ (runCycles s cs).2, ∀ q ∈ d, q.id ≠ i := by
  intro cs
  induction cs with
  | nil =>
    intro s i h d hd
    simp [runCycles] at hd
  | cons c rest ih =>
    intro s i h d hd q hq
    have hd2 : d = newJobsOf s c.1 ∨ d ∈ (runCycles (runCycle s c.1 c.2).1 rest).2 := by
      simpa [runCycles, runCycle, List.mem_cons] using hd
    rcases hd2 with hd2 | hd2
    · subst hd2
      have hmem := (mem_newJobsOf s c.1 q).mp hq
      intro hqi
      have hfalse : hasSeenJob s i = false := by
        rw [← hqi]
        exact hmem.2
      rw [h] at hfalse
      simp at hfalse
    · exact ih (runCycle s c.1 c.2).1 i (seen_runCycle s c.1 c.2 i h) d hd2 q hq

theorem collectSettled_foldl (results : List (Except String (List Job)))
    (acc : List Job × List String) :
    results.foldl
      (fun acc r =>
        match r with
        | .ok js => (acc.1 ++ js, acc.2)
        | .error e => (acc.1, acc.2 ++ [e]))
      acc =
    (acc.1 ++ (results.filterMap okJobs).flatten, acc.2 ++ results.filterMap errMsg) := by
  induction results generalizing acc with
  | nil => simp
  | cons r rest ih =>
    cases r with
    | ok js => simp [List.foldl_cons, ih, okJobs, errMsg, List.filterMap_cons]
    | error e => simp [List.foldl_cons, ih, okJobs, errMsg, List.filterMap_cons]

theorem collectSettled_eq (results : List (Except String (List Job))) :
    collectSettled results =
      ((results.filterMap okJobs).flatten, results.filterMap errMsg) := by
  unfold collectSettled
  rw [collectSettled_foldl]
  simp

/-! ## Concrete data for tests and witnesses -/

/-- The rule set of the spec's filter-correctness test:
`roles=["sales engineer"]`, `exclude=["intern"]`. -/
def salesFilter : FilterRules :=
  { roles := ["sales engineer"], locations := [], exclude := ["intern"] }

/-- Posting the spec's filter test rejects (exclusion wins over inclusion). -/
def internJob : Job :=
  { id := "greenhouse-acme-1", title := "Senior Sales Engineer Intern" }

/-- Posting the spec's filter test accepts. -/
def salesJob : Job :=
  { id := "greenhouse-acme-2", title := "Sales Engineer II" }

/-- A posting from one fulfilled scraper. -/
def jobA : Job :=
  { id := "lever-a-1", title := "Solutions Engineer" }

/-- A posting from another fulfilled scraper. -/
def jobC : Job :=
  { id := "wellfound-c-1", title := "Sales Engineer" }

/-- A LinkedIn alert posting whose title carries an exclude keyword. -/
def emailJob : Job :=
  { id := "linkedin-42", title := "Sales Engineer Intern", source := some "LinkedIn" }

/-- Record first seen 31 days before clock time 100, re-observed recently. -/
def staleRecord : SeenRecord :=
  { id := "stale", title := none, company := none, url := none, source := none,
    firstSeen := 69, lastSeen := 100 }

/-- Record first seen 29 days before clock time 100. -/
def freshRecord : SeenRecord :=
  { id := "fresh", title := none, company := none, url := none, source := none,
    firstSeen := 71, lastSeen := 100 }

/-- Store holding one stale and one fresh record. -/
def demoStore : Store :=
  [("stale", staleRecord), ("fresh", freshRecord)]

/-- Settled scraper results: A succeeds, B fails, C succeeds. -/
def demoResults : List (Except String (List Job)) :=
  [Except.ok [jobA], Except.error "FetchError", Except.ok [jobC]]

/-- Five distinct new qualifying postings. -/
def fiveJobs : List Job :=
  [{ id := "p-1", title := "Sales Engineer" },
   { id := "p-2", title := "Solutions Engineer" },
   { id := "p-3", title := "Sales Engineer, East" },
   { id := "p-4", title := "Sales Engineer, West" },
   { id := "p-5", title := "Pre-Sales Engineer" }]

/-! ## Claim theorems -/

/-- C4: `matches(posting, ruleSet)` returns true iff (roles is empty or some
role keyword is a case-insensitive substring of the title) and (locations is
empty or some location keyword is a case-insensitive substring of the
location) and no exclude keyword is a case-insensitive substring of the
title; with roles=["sales engineer"] and exclude=["intern"], the posting
titled "Senior Sales Engineer Intern" is rejected and the one titled
"Sales Engineer II" is accepted. -/
theorem matches_characterization :
    (∀ (f : FilterRules) (j : Job),
      jobMatches f j = true ↔
        ((f.roles = [] ∨ ∃ r ∈ f.roles, substrCI r j.title) ∧
         (f.locations = [] ∨ ∃ l ∈ f.locations, substrCI l (j.location.getD "")) ∧
         ¬ ∃ e ∈ f.exclude, substrCI e j.title)) ∧
    jobMatches salesFilter internJob = false ∧
    jobMatches salesFilter salesJob = true := by
  refine ⟨?_, by decide, by decide⟩
  intro f j
  simp only [jobMatches, Bool.and_eq_true, Bool.or_eq_true, List.any_eq_true,
    List.isEmpty_iff, strIncludes_iff, substrCI, Bool.not_eq_true',
    List.any_eq_false, not_exists, not_and]
  tauto

/-- C6: `evictExpired(now)` (code: `cleanOldEntries`) keeps exactly the
records whose `firstSeen` is not more than 30 days older than `now`,
regardless of `lastSeen`; concretely, at clock time 100 a record first seen
at 69 (31 days old, recently re-observed) is removed and one first seen at
71 (29 days old) is retained. -/
theorem cleanOldEntries_horizon :
    (∀ (s : Store) (now : Int) (p : String × SeenRecord),
      p ∈ cleanOldEntries s now ↔ p ∈ s ∧ ¬(30 < now - p.2.firstSeen)) ∧
    cleanOldEntries demoStore 100 = [("fresh", freshRecord)] := by
  refine ⟨?_, by decide⟩
  intro s now p
  simp only [cleanOldEntries, List.mem_filter, Bool.not_eq_true', decide_eq_false_iff_not]
  constructor
  · rintro ⟨h1, h2⟩
    exact ⟨h1, by omega⟩
  · rintro ⟨h1, h2⟩
    exact ⟨h1, by omega⟩

/-- C8: collecting the settled scraper results yields exactly the
concatenation of the fulfilled scrapers' postings, records every rejection
reason, and never aborts the cycle; concretely, with A and C fulfilled and
B rejected, the batch is A's and C's postings and the failure list is B's
reason. -/
theorem scraper_failure_isolated :
    (∀ results : List (Except String (List Job)),
      collectSettled results =
        ((results.filterMap okJobs).flatten, results.filterMap errMsg)) ∧
    (checkForNewJobs [] demoResults 0).1.2 = [jobA, jobC] ∧
    (checkForNewJobs [] demoResults 0).2 = ["FetchError"] := by
  exact ⟨collectSettled_eq, by decide, by decide⟩

/-- C10: `filterJobs` is a homomorphism over list concatenation, so
filtering per company (or per source) and concatenating equals filtering
the concatenated batch. -/
theorem filterJobs_append_hom :
    (∀ (f : FilterRules) (xs ys : List Job),
      filterJobs f (xs ++ ys) = filterJobs f xs ++ filterJobs f ys) ∧
    (∀ (f : FilterRules) (ls : List (List Job)),
      filterJobs f ls.flatten = (ls.map (filterJobs f)).flatten) := by
  constructor
  · intro f xs ys
    simp [filterJobs, List.filter_append]
  · intro f ls
    induction ls with
    | nil => simp [filterJobs]
    | cons x xs ih =>
      simp only [List.flatten_cons, List.map_cons, filterJobs, List.filter_append] at ih ⊢
      rw [ih]

/-- C3: evaluation of the scheduler model at the failing input — a cron
firing of the job-check timer followed by a manual trigger while the first
invocation is still running leaves two in-flight executions of the same
handler, because scheduler.js keeps no running flag and both the cron
callback and `trigger` invoke the handler unconditionally; the claim's
skip-and-report behaviour does not exist in the code. -/
theorem scheduler_overlap_possible :
    (schedStep (schedStep initSched (SchedEvent.cronFire TimerName.jobCheck))
        (SchedEvent.manualTrigger TimerName.jobCheck)).jobCheckRunning = 2 := rfl

/-- C9 counterexample: the wellfound alternative-structure id embeds the
scrape clock when the job URL ends in a slash (`split('/').pop()` is empty,
so `Date.now()` is used), so parsing the same content at two different
clock times yields different ids. -/
theorem wellfound_id_uses_clock :
    wellfoundAltId "https://wellfound.com/jobs/" 1000 ≠
      wellfoundAltId "https://wellfound.com/jobs/" 2000 := by
  decide

/-- C9 amended: the scraper ids are independent of the clock whenever the
stable source fields are non-empty — for wellfound when the URL's last
segment is non-empty, for Y Combinator when `data-job-id` or the URL's last
segment is non-empty; only the last-resort fallback embeds `Date.now()`. -/
theorem scraper_ids_deterministic_when_stable :
    (∀ (url : String) (t1 t2 : Int), lastUrlSegment url ≠ "" →
      wellfoundAltId url t1 = wellfoundAltId url t2) ∧
    (∀ (d : Option String) (url : String) (t1 t2 : Int),
      d.getD "" ≠ "" ∨ lastUrlSegment url ≠ "" →
      ycJobId d url t1 = ycJobId d url t2) := by
  constructor
  · intro url t1 t2 h
    simp [wellfoundAltId, h]
  · intro d url t1 t2 h
    rcases h with h | h
    · simp [ycJobId, h]
    · by_cases hd : d.getD "" = ""
      · simp [ycJobId, hd, h]
      · simp [ycJobId, hd]

/-- C9 witness: concrete stable inputs on which the amended determinism
theorem applies. -/
theorem scraper_ids_deterministic_when_stable_witness :
    wellfoundAltId "a/b" 5 = wellfoundAltId "a/b" 9 ∧
    ycJobId (some "123") "x/" 5 = ycJobId (some "123") "x/" 9 :=
  ⟨scraper_ids_deterministic_when_stable.1 "a/b" 5 9 (by decide),
   scraper_ids_deterministic_when_stable.2 (some "123") "x/" 5 9 (Or.inl (by decide))⟩

/-- Every job the cycle hands to the delivery code is marked seen in the
store the cycle leaves behind (marking happens before posting). -/
theorem delivered_marked (s : Store) (jobs : List Job) (t : Int) (q : Job)
    (hq : q ∈ (runCycle s jobs t).2) :
    hasSeenJob (runCycle s jobs t).1 q.id = true := by
  have hmem : q ∈ newJobsOf s jobs := by
    simpa [runCycle] using hq
  have hrun : (runCycle s jobs t).1 = markAll s (newJobsOf s jobs) t := rfl
  rw [hrun, hasSeenJob_markAll]
  have hany : (newJobsOf s jobs).any (fun j => j.id == q.id) = true := by
    rw [List.any_eq_true]
    exact ⟨q, hmem, by simp⟩
  simp [hany]

/-- C1 counterexample: a single cycle whose fetched batch contains the same
posting twice hands it to `postJobs` twice and the sink batch carries the
same id twice, because the batch is filtered against the store before any
of its elements is marked seen; "the sink never receives two postings with
the same id" is false as an unrestricted statement. -/
theorem sink_duplicate_within_cycle :
    (postJobsBatch 10 (runCycle [] [jobA, jobA] 0).2).countP
      (fun j => j.id == jobA.id) = 2 := by
  decide

/-- C1 amended: for every posting delivered in one cycle, the store the
cycle leaves behind has `hasSeen(id) = true`, and no later cycle — run on
that store, over any fetched batches — ever hands a posting with that id to
the Delivery Controller again; so the sink never receives the same id in
two different cycles. -/
theorem no_redelivery_across_cycles (s : Store) (jobs1 : List Job) (t1 : Int)
    (rest : List (List Job × Int)) (p : Job)
    (hp : p ∈ (runCycle s jobs1 t1).2) :
    hasSeenJob (runCycle s jobs1 t1).1 p.id = true ∧
    ∀ d ∈ (runCycles (runCycle s jobs1 t1).1 rest).2, ∀ q ∈ d, q.id ≠ p.id := by
  have hseen := delivered_marked s jobs1 t1 p hp
  exact ⟨hseen, seen_not_delivered rest (runCycle s jobs1 t1).1 p.id hseen⟩

/-- C1 witness: a posting delivered in a first cycle over the empty store
is seen afterwards and is not delivered by a later cycle fetching it again. -/
theorem no_redelivery_across_cycles_witness :
    jobA ∈ (runCycle [] [jobA] 0).2 ∧
    (hasSeenJob (runCycle [] [jobA] 0).1 jobA.id = true ∧
     ∀ d ∈ (runCycles (runCycle [] [jobA] 0).1 [([jobA], 1)]).2,
       ∀ q ∈ d, q.id ≠ jobA.id) :=
  ⟨by decide, no_redelivery_across_cycles [] [jobA] 0 [([jobA], 1)] jobA (by decide)⟩

/-- C2: for an id the store has not seen, calling `markJobSeen(id, p)` at
time t1 and again at time t2 leaves exactly one SeenRecord for that id,
whose `firstSeen` is t1 (the first call's timestamp, unchanged by the
second call) and whose `lastSeen` is t2 (the second call's timestamp). -/
theorem markJobSeen_twice (s : Store) (id : String) (p : Job) (t1 t2 : Int)
    (h : hasSeenJob s id = false) :
    countFor (markJobSeen (markJobSeen s id p t1) id p t2) id = 1 ∧
    ∃ r, storeLookup (markJobSeen (markJobSeen s id p t1) id p t2) id = some r ∧
      r.firstSeen = t1 ∧ r.lastSeen = t2 := by
  have hnone := (hasSeenJob_eq_false_iff s id).mp h
  have hlook1 : storeLookup (markJobSeen s id p t1) id =
      some { id := id, title := jsOrNull (some p.title), company := jsOrNull p.company,
             url := jsOrNull p.url, source := jsOrNull p.source,
             firstSeen := t1, lastSeen := t1 } := by
    simp only [markJobSeen, hnone]
    rw [storeLookup_storeInsert]
    simp
  have hseen1 : hasSeenJob (markJobSeen s id p t1) id = true := by
    unfold hasSeenJob
    rw [hlook1]
    rfl
  have hlook2 : storeLookup (markJobSeen (markJobSeen s id p t1) id p t2) id =
      some { id := id, title := jsOrNull (some p.title), company := jsOrNull p.company,
             url := jsOrNull p.url, source := jsOrNull p.source,
             firstSeen := t1, lastSeen := t2 } := by
    simp only [markJobSeen, hlook1]
    rw [storeLookup_storeInsert]
    simp [markJobSeen] at hlook1
    simp [hlook1]
  have hc1 : countFor (markJobSeen s id p t1) id = 1 := by
    simp only [markJobSeen]
    rw [countFor_storeInsert, if_neg (by rw [h]; simp), countFor_eq_zero s id h]
  have hc2 : countFor (markJobSeen (markJobSeen s id p t1) id p t2) id = 1 := by
    conv =>
      lhs
      rw [show markJobSeen (markJobSeen s id p t1) id p t2 =
            storeInsert (markJobSeen s id p t1) id
              { id := id, title := jsOrNull (some p.title), company := jsOrNull p.company,
                url := jsOrNull p.url, source := jsOrNull p.source,
                firstSeen :=
                  match storeLookup (markJobSeen s id p t1) id with
                  | some old => old.firstSeen
                  | none => t2
                lastSeen := t2 } from rfl]
    rw [countFor_storeInsert, if_pos hseen1, hc1]
  exact ⟨hc2, _, hlook2, rfl, rfl⟩

/-- C2 witness: two marks of a fresh id at times 1 and 2 leave one record
with firstSeen 1 and lastSeen 2. -/
theorem markJobSeen_twice_witness :
    hasSeenJob [] "lever-a-1" = false ∧
    (countFor (markJobSeen (markJobSeen [] "lever-a-1" jobA 1) "lever-a-1" jobA 2)
        "lever-a-1" = 1 ∧
     ∃ r, storeLookup (markJobSeen (markJobSeen [] "lever-a-1" jobA 1) "lever-a-1" jobA 2)
        "lever-a-1" = some r ∧ r.firstSeen = 1 ∧ r.lastSeen = 2) :=
  ⟨by decide, markJobSeen_twice [] "lever-a-1" jobA 1 2 (by decide)⟩

/-- C5 counterexample: the email-check cycle hands `parse()` output to the
delivery code without any Filter Engine evaluation — a posting whose title
carries an exclude keyword ("Intern"), hence `matches = false`, is
delivered anyway, refuting "every posting handed to the Delivery Controller
satisfies matches" for the email-check cycle. -/
theorem email_cycle_not_filtered :
    jobMatches salesFilter emailJob = false ∧
    emailJob ∈ (checkLinkedInEmails [] [emailJob] 0).2 ∧
    emailJob ∈ postJobsBatch 10 (checkLinkedInEmails [] [emailJob] 0).2 := by
  exact ⟨by decide, by decide, by decide⟩

/-- C5 amended: in the job-check cycle — where each scraper applies
`filterJobs` to its fetched batch before returning — every posting handed
to the Delivery Controller satisfies `matches`; the email-check cycle is
exempt because bot.js calls the unfiltering `parse()`. -/
theorem job_cycle_delivers_only_matching (f : FilterRules) (s : Store)
    (raw : List (Except String (List Job))) (t : Int) (q : Job)
    (hq : q ∈ (checkForNewJobs s (raw.map (Except.map (filterJobs f))) t).1.2) :
    jobMatches f q = true := by
  have hq2 : q ∈ newJobsOf s (collectSettled (raw.map (Except.map (filterJobs f)))).1 := by
    simpa [checkForNewJobs, runCycle] using hq
  have hbatch : q ∈ (collectSettled (raw.map (Except.map (filterJobs f)))).1 :=
    ((mem_newJobsOf _ _ _).mp hq2).1
  rw [collectSettled_eq] at hbatch
  simp only [List.mem_flatten, List.mem_filterMap, List.mem_map] at hbatch
  obtain ⟨l, ⟨r, ⟨r0, hr0, hmap⟩, hok⟩, hql⟩ := hbatch
  subst hmap
  cases r0 with
  | ok js =>
    simp only [Except.map, okJobs, Option.some.injEq] at hok
    subst hok
    exact ((List.mem_filter).mp hql).2
  | error e =>
    simp [Except.map, okJobs] at hok

/-- C5 witness: a matching posting delivered by a job-check cycle over one
fulfilled, filtered scraper satisfies `matches`. -/
theorem job_cycle_delivers_only_matching_witness :
    salesJob ∈ (checkForNewJobs []
        ([Except.ok [salesJob]].map (Except.map (filterJobs salesFilter))) 0).1.2 ∧
    jobMatches salesFilter salesJob = true :=
  ⟨by decide,
   job_cycle_delivers_only_matching salesFilter [] [Except.ok [salesJob]] 0 salesJob
     (by decide)⟩

/-- C7: when a cycle produces more new qualifying postings than the batch
cap k, exactly k are sent to the sink (`postJobs` slices the batch), every
new posting — sent or deferred — is already marked seen in the store the
cycle leaves behind, and no later cycle run on that store ever delivers any
of their ids again. -/
theorem batch_cap_and_no_retry (s : Store) (jobs : List Job) (t : Int) (k : Nat)
    (h : k < (runCycle s jobs t).2.length) :
    (postJobsBatch k (runCycle s jobs t).2).length = k ∧
    (∀ q ∈ (runCycle s jobs t).2, hasSeenJob (runCycle s jobs t).1 q.id = true) ∧
    ∀ (rest : List (List Job × Int)),
      ∀ d ∈ (runCycles (runCycle s jobs t).1 rest).2, ∀ q2 ∈ d,
        ∀ q ∈ (runCycle s jobs t).2, q2.id ≠ q.id := by
  refine ⟨?_, ?_, ?_⟩
  · simp only [postJobsBatch, List.length_take]
    omega
  · intro q hq
    exact delivered_marked s jobs t q hq
  · intro rest d hd q2 hq2 q hq
    exact seen_not_delivered rest (runCycle s jobs t).1 q.id
      (delivered_marked s jobs t q hq) d hd q2 hq2

/-- C7 witness: five new qualifying postings with cap 2 — exactly 2 reach
the sink, all five are marked, none is delivered by a later cycle. -/
theorem batch_cap_and_no_retry_witness :
    2 < (runCycle [] fiveJobs 0).2.length ∧
    ((postJobsBatch 2 (runCycle [] fiveJobs 0).2).length = 2 ∧
     (∀ q ∈ (runCycle [] fiveJobs 0).2, hasSeenJob (runCycle [] fiveJobs 0).1 q.id = true) ∧
     ∀ (rest : List (List Job × Int)),
       ∀ d ∈ (runCycles (runCycle [] fiveJobs 0).1 rest).2, ∀ q2 ∈ d,
         ∀ q ∈ (runCycle [] fiveJobs 0).2, q2.id ≠ q.id) :=
  ⟨by decide, batch_cap_and_no_retry [] fiveJobs 0 2 (by decide)⟩
